import Mathlib

/-!
Verification of the ThreatCode scanning pipeline against its specification.

The Python sources (`src/scanner/file_collector.py`, `src/scanner/analyzer.py`,
`src/scanner/providers/openrouter.py`, `src/utils/config.py`) are shallowly
embedded below: pure functions become Lean functions, the per-item loops become
structural recursions, Python `try`/`except` per-item recovery becomes
`Option`/`Except`, and the insertion-ordered Python `dict` becomes an
association list.  Machine integers do not overflow in any of the embedded
code paths (byte counts and list indices), so `Nat` is used throughout.
-/

namespace ThreatCode

/-! ## FileCollector: `read_file_chunked` (file_collector.py, lines 102-141)

A file is modelled as its sequence of lines, each line a `String` carrying its
terminator, exactly as Python's `for line in f` iterates.  The byte size of a
line is its UTF-8 encoded length, matching `len(line.encode('utf-8'))`. -/

/-- The chunking loop of `read_file_chunked`, keeping each chunk as the list of
its lines (the Python code joins them with `''.join`; the joined form is
recovered by `read_file_chunked` below).  Arguments mirror the Python locals:
current chunk, its byte size, the next line number, and the current chunk's
starting line. -/
def readChunkLines (chunkSize : Nat) :
    List String → List String → Nat → Nat → Nat → List (List String × Nat)
  | [], cur, _, _, startLine =>
      if cur = [] then [] else [(cur, startLine)]
  | line :: rest, cur, curSize, lineNo, startLine =>
      let lineSize := line.utf8ByteSize
      if curSize + lineSize > chunkSize ∧ cur ≠ [] then
        (cur, startLine) ::
          readChunkLines chunkSize rest [line] lineSize (lineNo + 1) lineNo
      else
        readChunkLines chunkSize rest (cur ++ [line]) (curSize + lineSize)
          (lineNo + 1) startLine

/-- Line-list form of the chunk stream of a file. -/
def fileChunks (chunkSize : Nat) (lines : List String) : List (List String × Nat) :=
  readChunkLines chunkSize lines [] 0 1 1

/-- `read_file_chunked`: the list of `(chunk_content, starting_line_number)`
pairs produced for a readable file with the given lines. -/
def read_file_chunked (chunkSize : Nat) (lines : List String) : List (String × Nat) :=
  (fileChunks chunkSize lines).map (fun c => (String.join c.1, c.2))

/-- Chunk starting lines are consecutive: the chunk beginning at line `n` is
followed by chunks accounting for its lines. -/
def startsFrom : Nat → List (List String × Nat) → Prop
  | _, [] => True
  | n, (c, st) :: rest => st = n ∧ startsFrom (n + c.length) rest

/-! ## FileCollector: `create_batches` (file_collector.py, lines 143-172)

Files are `(path, size)` pairs.  Python's `sorted(files, key=lambda x: x[1])`
is a stable ascending sort by size; insertion sort with `≤` computes the same
stable sort.  The greedy loop keeps the sizes alongside the paths (the source
tracks `current_size` separately and stores only paths; `create_batches`
projects the paths at the end). -/

/-- `sorted(files, key=lambda x: x[1])`. -/
def sortBySize (files : List (String × Nat)) : List (String × Nat) :=
  List.insertionSort (fun a b => a.2 ≤ b.2) files

/-- The greedy packing loop of `create_batches`, over `(path, size)` pairs:
flush the current batch when adding the next file would exceed `batchSize`
on a non-empty batch. -/
def createBatchLoop (batchSize : Nat) :
    List (String × Nat) → List (String × Nat) → Nat → List (List (String × Nat))
  | [], cur, _ => if cur = [] then [] else [cur]
  | f :: rest, cur, curSize =>
      if curSize + f.2 > batchSize ∧ cur ≠ [] then
        cur :: createBatchLoop batchSize rest [f] f.2
      else
        createBatchLoop batchSize rest (cur ++ [f]) (curSize + f.2)

/-- The sized batches of a scan. -/
def sizedBatches (batchSize : Nat) (files : List (String × Nat)) :
    List (List (String × Nat)) :=
  createBatchLoop batchSize (sortBySize files) [] 0

/-- `create_batches`: batches of file paths. -/
def create_batches (batchSize : Nat) (files : List (String × Nat)) :
    List (List String) :=
  (sizedBatches batchSize files).map (List.map Prod.fst)

/-- Total size of a sized batch. -/
def batchWeight (b : List (String × Nat)) : Nat := (b.map Prod.snd).sum

instance : IsTotal (String × Nat) (fun a b => a.2 ≤ b.2) :=
  ⟨fun a b => Nat.le_total a.2 b.2⟩

instance : IsTrans (String × Nat) (fun a b => a.2 ≤ b.2) :=
  ⟨fun _ _ _ h₁ h₂ => Nat.le_trans h₁ h₂⟩

/-! ## Data model (`src/utils/config.py`)

`Severity` is the `Literal` type of `Finding.severity`.  `Evidence` and the
first nine fields of `Finding` are the Pydantic models of config.py. -/

/-- The five severity literals of `Finding.severity`. -/
inductive Severity
  | critical | high | medium | low | informational
deriving DecidableEq

/-- The Python literal string of a severity. -/
def Severity.lit : Severity → String
  | .critical => "Critical"
  | .high => "High"
  | .medium => "Medium"
  | .low => "Low"
  | .informational => "Informational"

/-- `Evidence` (config.py, lines 92-97). -/
structure Evidence where
  file_path : String
  line_number : Option Int := none
  code : String
  description : Option String := none
deriving DecidableEq

/-- Modelled from the spec: the validation-annotation fields of `Finding`
(`validated`, `validation_verdict`, `validation_confidence`,
`validation_rationale`, `validated_by_model`).  The `Finding` class under
`src/utils/config.py` declares only the first nine fields, yet
`analyzer.py`'s `_validate_findings` assigns and `analyze` reads these five
annotation fields; their declaration lives in a duplicated configuration
module of the repository that is not present under `src/`, so they are
modelled here from the spec's data model (spec section 3: optional validation
annotations `validated(bool)`, `verdict`, `confidence`, `rationale`,
`validated_by`). -/
structure Finding where
  title : String
  severity : Severity
  description : String
  evidence : List Evidence := []
  remediation : String
  cvss_score : Option String := none
  impact : Option String := none
  attack_scenario : Option String := none
  references : Option (List String) := some []
  validated : Bool := false
  validation_verdict : Option String := none
  validation_confidence : Option String := none
  validation_rationale : Option String := none
  validated_by_model : Option String := none
deriving DecidableEq

/-- `ReportData` (config.py, lines 113-125); the timestamp and the constant
auditor/methodology strings are omitted as they play no role in any claim. -/
structure ReportData where
  application_name : String
  findings : List Finding := []
  severity_stats : List (String × Nat) := []
  executive_summary : Option String := none
  conclusion : Option String := none
deriving DecidableEq

/-! ## `ReportData.calculate_severity_stats` and summary texts
(config.py, lines 127-190) -/

/-- ASCII-faithful `str.lower()`. -/
def strLower (s : String) : String := String.mk (s.toList.map Char.toLower)

/-- `severity_key = finding.severity.lower()`, then mapping `"informational"`
to `"info"`. -/
def severityKey (s : Severity) : String :=
  let key := strLower s.lit
  if key = "informational" then "info" else key

/-- `if severity_key in self.severity_stats: self.severity_stats[severity_key] += 1`
on the insertion-ordered stats dict. -/
def bumpStat (stats : List (String × Nat)) (key : String) : List (String × Nat) :=
  stats.map (fun p => if p.1 = key then (p.1, p.2 + 1) else p)

/-- The dict the method starts from, with exactly the five keys. -/
def initSeverityStats : List (String × Nat) :=
  [("critical", 0), ("high", 0), ("medium", 0), ("low", 0), ("info", 0)]

/-- `calculate_severity_stats` as a function of the finding list. -/
def calculate_severity_stats (findings : List Finding) : List (String × Nat) :=
  findings.foldl (fun stats f => bumpStat stats (severityKey f.severity))
    initSeverityStats

/-- Number of findings having severity `s`. -/
def countSev (s : Severity) (findings : List Finding) : Nat :=
  findings.countP (fun f => f.severity = s)

/-- `dict.get(key, 0)`. -/
def statGet (stats : List (String × Nat)) (key : String) : Nat :=
  (stats.lookup key).getD 0

/-- `generate_executive_summary` as a function of the finding list and the
severity stats. -/
def generate_executive_summary (applicationName : String)
    (findings : List Finding) (stats : List (String × Nat)) : String :=
  let total := findings.length
  if total = 0 then
    "<p>The automated security scan completed successfully with <strong>no vulnerabilities detected</strong> in the analyzed codebase.</p>"
  else
    let critical := statGet stats "critical"
    let high := statGet stats "high"
    let medium := statGet stats "medium"
    let low := statGet stats "low"
    let info := statGet stats "info"
    "<p>The automated security analysis identified <strong>" ++ toString total ++
      " security finding(s)</strong> in the " ++ applicationName ++
      " codebase:</p>\n<ul>\n<li><strong>Critical:</strong> " ++ toString critical ++
      " issue(s) requiring immediate attention</li>\n<li><strong>High:</strong> " ++
      toString high ++
      " issue(s) that should be addressed soon</li>\n<li><strong>Medium:</strong> " ++
      toString medium ++
      " issue(s) requiring review</li>\n<li><strong>Low:</strong> " ++ toString low ++
      " minor issue(s)</li>\n<li><strong>Informational:</strong> " ++ toString info ++
      " best practice recommendation(s)</li>\n</ul>\n<p>This report provides detailed findings with remediation guidance for each identified vulnerability.</p>"

/-- `generate_conclusion` as a function of the finding list and stats. -/
def generate_conclusion (findings : List Finding)
    (stats : List (String × Nat)) : String :=
  let total := findings.length
  let critical := statGet stats "critical"
  let high := statGet stats "high"
  if total = 0 then
    "<p>The codebase demonstrates good security practices with no vulnerabilities identified during this automated scan. Continue following secure coding practices and perform regular security assessments.</p>"
  else if 0 < critical ∨ 0 < high then
    "<p>The analysis identified <strong>" ++ toString (critical + high) ++
      " critical/high severity</strong> issue(s) that require immediate attention. It is strongly recommended to:</p>\n<ul>\n<li>Prioritize remediation of Critical and High severity findings</li>\n<li>Implement the suggested fixes as outlined in each finding</li>\n<li>Conduct code review of the remediated sections</li>\n<li>Re-scan the codebase after implementing fixes</li>\n<li>Consider implementing automated security scanning in your CI/CD pipeline</li>\n</ul>"
  else
    "<p>The codebase shows generally good security practices with primarily medium/low severity findings. Recommendations:</p>\n<ul>\n<li>Address the identified Medium and Low severity issues during regular maintenance cycles</li>\n<li>Review and implement the informational best practice recommendations</li>\n<li>Continue regular security assessments</li>\n<li>Consider security training for the development team</li>\n</ul>"

/-- A High-severity demo finding for the C9 scenario. -/
def demoFindingHigh : Finding :=
  { title := "F1", severity := .high, description := "d1", remediation := "r1" }

/-- A Critical-severity demo finding for the C9 scenario. -/
def demoFindingCritical : Finding :=
  { title := "F2", severity := .critical, description := "d2", remediation := "r2" }

/-! ## ProviderClient retry envelope (openrouter.py, lines 42-46 and 100-104)

Both `analyze_code` and `validate_finding` are decorated with
`@retry(stop=stop_after_attempt(3), wait=wait_exponential(multiplier=1, min=2,
max=10), retry=retry_if_exception_type((httpx.HTTPError, JSONParseError)))`.
The exception taxonomy: `httpx.HTTPError` is the base class of both
`httpx.RequestError` (network failures, timeouts) and `httpx.HTTPStatusError`
(raised by `response.raise_for_status()` for every non-2xx status, 4xx
included). -/

/-- Exceptions that can escape one attempt of a provider call. -/
inductive ProviderException
  | networkError (msg : String)
  | httpStatusError (status : Nat)
  | jsonParseError (msg : String)
  | otherError (msg : String)
deriving DecidableEq

/-- `isinstance(e, httpx.HTTPError)`: network errors and all status errors. -/
def isHttpxHTTPError : ProviderException → Bool
  | .networkError _ => true
  | .httpStatusError _ => true
  | _ => false

/-- `isinstance(e, JSONParseError)`. -/
def isJSONParseError : ProviderException → Bool
  | .jsonParseError _ => true
  | _ => false

/-- `retry_if_exception_type((httpx.HTTPError, JSONParseError))`. -/
def retryOnException (e : ProviderException) : Bool :=
  isHttpxHTTPError e || isJSONParseError e

/-- The tenacity retry configuration of a decorated call. -/
structure RetryPolicy where
  stopAfterAttempt : Nat
  waitMultiplier : Nat
  waitMin : Nat
  waitMax : Nat
  retryOn : ProviderException → Bool

/-- The decoration of `analyze_code` (openrouter.py, lines 42-46). -/
def analyzeCodePolicy : RetryPolicy :=
  { stopAfterAttempt := 3, waitMultiplier := 1, waitMin := 2, waitMax := 10,
    retryOn := retryOnException }

/-- The decoration of `validate_finding` (openrouter.py, lines 100-104). -/
def validateFindingPolicy : RetryPolicy :=
  { stopAfterAttempt := 3, waitMultiplier := 1, waitMin := 2, waitMax := 10,
    retryOn := retryOnException }

/-- `wait_exponential`: `multiplier * 2^(attempt-1)` clamped into
`[min, max]` (seconds before the next attempt, after failed attempt
number `attempt`). -/
def RetryPolicy.wait (p : RetryPolicy) (attempt : Nat) : Nat :=
  max p.waitMin (min (p.waitMultiplier * 2 ^ (attempt - 1)) p.waitMax)

/-- Execution of the retry loop: `outcome n` is what attempt number `n`
produces; the pair returned is the surfaced result together with the number
of the attempt on which the loop stopped.  `fuel` is the number of retries
still allowed (`stop_after_attempt` minus the attempts already begun). -/
def retryExecAux (retryOn : ProviderException → Bool)
    (outcome : Nat → Except ProviderException (List Finding)) :
    Nat → Nat → Except ProviderException (List Finding) × Nat
  | attempt, 0 => (outcome attempt, attempt)
  | attempt, fuel + 1 =>
      match outcome attempt with
      | .ok v => (.ok v, attempt)
      | .error e =>
          if retryOn e then retryExecAux retryOn outcome (attempt + 1) fuel
          else (.error e, attempt)

/-- A provider call under its retry policy. -/
def retryExec (p : RetryPolicy)
    (outcome : Nat → Except ProviderException (List Finding)) :
    Except ProviderException (List Finding) × Nat :=
  retryExecAux p.retryOn outcome 1 (p.stopAfterAttempt - 1)

/-! ## AnalysisOrchestrator (analyzer.py)

`batch_codes` is an insertion-ordered Python dict, embedded as an association
list.  `_process_batch` stores, for every finding of a successful batch, the
batch's code blob under the key `f"{finding.title}_{len(self.batch_codes)}"`;
batches complete in an order the scheduler chooses (`asyncio.gather` with a
semaphore gives no completion-order guarantee), while the gathered findings
are extended in task order. -/

/-- `self.batch_codes[key] = value` on an insertion-ordered dict. -/
def dictInsert (d : List (String × String)) (k v : String) :
    List (String × String) :=
  if (d.lookup k).isSome then
    d.map (fun p => if p.1 = k then (k, v) else p)
  else
    d ++ [(k, v)]

/-- The storing loop of `_process_batch` (analyzer.py, lines 219-223):
`finding_key = f"{finding.title}_{len(self.batch_codes)}"`. -/
def storeBatchCodes (codeChunk : String) (batchFindings : List Finding)
    (codes : List (String × String)) : List (String × String) :=
  batchFindings.foldl
    (fun cs f => dictInsert cs (f.title ++ "_" ++ toString cs.length) codeChunk)
    codes

/-- The `batch_codes` dict after all batches stored their findings' code in
completion order `order` (a permutation of the batch indices chosen by the
scheduler).  Each batch is its annotated code blob together with the findings
the provider returned for it. -/
def runStores (batches : List (String × List Finding)) (order : List Nat) :
    List (String × String) :=
  order.foldl
    (fun cs i =>
      match batches.get? i with
      | some (code, fs) => storeBatchCodes code fs cs
      | none => cs)
    []

/-- The gathered findings in task order (`asyncio.gather` returns results in
the order the tasks were created). -/
def gatheredFindings (batches : List (String × List Finding)) : List Finding :=
  (batches.map Prod.snd).flatten

/-- The code-context lookup of `_validate_findings` (analyzer.py, lines
246-257): `finding_key = f"{finding.title}_{idx}" if ... in self.batch_codes
else None`, `original_code = self.batch_codes.get(finding_key, "")`, falling
back to the concatenated evidence snippets when `original_code` is falsy. -/
def originalCodeFor (codes : List (String × String)) (idx : Nat)
    (f : Finding) : String :=
  let key := f.title ++ "_" ++ toString idx
  let stored := if (codes.lookup key).isSome then (codes.lookup key).getD "" else ""
  if stored = "" ∧ f.evidence ≠ [] then
    String.intercalate "\n\n"
      (f.evidence.map (fun ev => "# File: " ++ ev.file_path ++ "\n" ++ ev.code))
  else stored

/-- The dictionary returned by `validate_finding`. -/
structure ValidationResult where
  verdict : String
  confidence : String
  rationale : String
deriving DecidableEq

/-- The success branch of the validation loop (analyzer.py, lines 259-270). -/
def annotateValidated (f : Finding) (v : ValidationResult)
    (checkerModel : String) : Finding :=
  { f with validated := true,
           validation_verdict := some v.verdict,
           validation_confidence := some v.confidence,
           validation_rationale := some v.rationale,
           validated_by_model := some checkerModel }

/-- The `except` branch of the validation loop (analyzer.py, lines 272-279). -/
def annotateValidationError (f : Finding) (errText : String)
    (checkerModel : String) : Finding :=
  { f with validated := true,
           validation_verdict := some "Needs Review",
           validation_confidence := some "Low",
           validation_rationale := some ("Validation error: " ++ errText),
           validated_by_model := some checkerModel }

/-- The per-finding loop of `_validate_findings`: `oracle` is the checker
provider's `validate_finding` (already wrapped in its retry envelope), whose
raised exception is modelled as `.error` with the exception text. -/
def validateLoop (oracle : Finding → String → Except String ValidationResult)
    (checkerModel : String) (codes : List (String × String)) :
    List Finding → Nat → List Finding
  | [], _ => []
  | f :: rest, idx =>
      let code := originalCodeFor codes idx f
      let f' :=
        match oracle f code with
        | .ok v => annotateValidated f v checkerModel
        | .error e => annotateValidationError f e checkerModel
      f' :: validateLoop oracle checkerModel codes rest (idx + 1)

/-- `_validate_findings` (analyzer.py, lines 231-284). -/
def validate_findings (oracle : Finding → String → Except String ValidationResult)
    (checkerModel : String) (codes : List (String × String))
    (findings : List Finding) : List Finding :=
  validateLoop oracle checkerModel codes findings 0

/-- `_process_batch` seen from `analyze`: the provider-call outcome for the
batch's code blob; a raised exception (retry exhaustion included) is caught,
logged as a warning, and contributes an empty finding list (analyzer.py,
lines 215-229). -/
def process_batch (callResult : Except String (List Finding)) : List Finding :=
  match callResult with
  | .ok fs => fs
  | .error _ => []

/-- `analyze` from batch processing onward (analyzer.py, lines 131-180):
gather every batch's `_process_batch` result, extend the findings in task
order, optionally run the maker-checker pass, and derive the report fields
from the resulting finding list. -/
def analyzeModel (appName : String)
    (outcomes : List (Except String (List Finding)))
    (checkerEnabled : Bool)
    (oracle : Finding → String → Except String ValidationResult)
    (checkerModel : String) (codes : List (String × String)) : ReportData :=
  let allFindings := (outcomes.map process_batch).flatten
  let allFindings :=
    if checkerEnabled ∧ allFindings ≠ [] then
      validate_findings oracle checkerModel codes allFindings
    else allFindings
  let stats := calculate_severity_stats allFindings
  { application_name := appName
    findings := allFindings
    severity_stats := stats
    executive_summary := some (generate_executive_summary appName allFindings stats)
    conclusion := some (generate_conclusion allFindings stats) }

/-- `analyze` including the no-files early return (analyzer.py, lines
115-180): when `collect_files` returns no files, the report is returned
immediately (lines 120-125) with only the application name and an empty
finding list — `severity_stats` stays the Pydantic default empty dict and
neither executive summary nor conclusion is generated; otherwise batches are
built from the collected files and processing continues as in
`analyzeModel`. -/
def analyzeRun (appName : String) (files : List (List String × Nat))
    (outcomes : List (Except String (List Finding)))
    (checkerEnabled : Bool)
    (oracle : Finding → String → Except String ValidationResult)
    (checkerModel : String) (codes : List (String × String)) : ReportData :=
  if files = [] then
    { application_name := appName, findings := [] }
  else
    analyzeModel appName outcomes checkerEnabled oracle checkerModel codes

/-! ## Response parsing (`openrouter.py`, `_parse_findings` lines 218-326)

`json.loads` output is embedded as `JValue`; the per-finding loop body with
its `try`/`except Exception` becomes an `Option`-valued entry parser, `none`
modelling `continue` after a warning. -/

/-- JSON values as produced by `json.loads`. -/
inductive JValue
  | jnull
  | jbool (b : Bool)
  | jnum (n : Int)
  | jstr (s : String)
  | jarr (items : List JValue)
  | jobj (fields : List (String × JValue))

/-- Pydantic `str` field validation: only a JSON string passes. -/
def asString : JValue → Option String
  | .jstr s => some s
  | _ => none

/-- Pydantic validation of the `severity` `Literal`. -/
def parseSeverity (v : JValue) : Option Severity :=
  match asString v with
  | some "Critical" => some .critical
  | some "High" => some .high
  | some "Medium" => some .medium
  | some "Low" => some .low
  | some "Informational" => some .informational
  | _ => none

/-- `Evidence(**ev)` (openrouter.py, line 297): Pydantic validation of one
evidence entry; any failure raises, and `none` makes the entry be skipped. -/
def tryParseEvidence : JValue → Option Evidence
  | .jobj fields => do
      let fp ← (fields.lookup "file_path").bind asString
      let ln ← (match fields.lookup "line_number" with
        | none => some none
        | some .jnull => some none
        | some (.jnum n) => some (some n)
        | some _ => none : Option (Option Int))
      let code ← (fields.lookup "code").bind asString
      let desc ← (match fields.lookup "description" with
        | none => some none
        | some .jnull => some none
        | some (.jstr s) => some (some s)
        | some _ => none : Option (Option String))
      some { file_path := fp, line_number := ln, code := code,
             description := desc }
  | _ => none

/-- Pydantic validation of an `Optional[str]` field passed explicitly
(`dict.get` returns `None` for an absent key). -/
def optString : Option JValue → Option (Option String)
  | none => some none
  | some .jnull => some none
  | some (.jstr s) => some (some s)
  | some _ => none

/-- Pydantic validation of the `Optional[List[str]]` field `references`. -/
def optStringList : Option JValue → Option (Option (List String))
  | none => some none
  | some .jnull => some none
  | some (.jarr items) => (items.mapM asString).map some
  | some _ => none

/-- The iterable of `finding_data.get("evidence", [])` (openrouter.py, line
295): a missing key yields `[]`; an array yields its items; iterating a
string or an object yields characters or keys, each of which makes
`Evidence(**ev)` raise and be skipped, contributing no evidence; iterating
any other value raises `TypeError` caught by the per-finding handler, which
drops the finding. -/
def evidenceItems : Option JValue → Option (List JValue)
  | none => some []
  | some (.jarr items) => some items
  | some (.jstr _) => some []
  | some (.jobj _) => some []
  | some _ => none

/-- `required_fields` (openrouter.py, line 287). -/
def requiredFields : List String :=
  ["title", "severity", "description", "remediation"]

/-- The missing-required-fields check (openrouter.py, lines 288-292). -/
def missingRequired (fields : List (String × JValue)) : Bool :=
  requiredFields.any (fun k => (fields.lookup k).isNone)

/-- One iteration of the findings loop (openrouter.py, lines 284-317):
`none` models `continue` after a warning, whether from the missing-fields
check or from any exception while building the `Finding` (a non-object
entry, a wrongly typed field, an invalid severity literal, or a
non-iterable `evidence`). -/
def tryParseFindingEntry : JValue → Option Finding
  | .jobj fields =>
      if missingRequired fields then none
      else do
        let evs ← evidenceItems (fields.lookup "evidence")
        let evidenceList := evs.filterMap tryParseEvidence
        let title ← (fields.lookup "title").bind asString
        let sev ← (fields.lookup "severity").bind parseSeverity
        let desc ← (fields.lookup "description").bind asString
        let rem ← (fields.lookup "remediation").bind asString
        let cvss ← optString (fields.lookup "cvss_score")
        let imp ← optString (fields.lookup "impact")
        let att ← optString (fields.lookup "attack_scenario")
        let refs ← optStringList (fields.lookup "references")
        some { title := title, severity := sev, description := desc,
               evidence := evidenceList, remediation := rem,
               cvss_score := cvss, impact := imp, attack_scenario := att,
               references := refs }
  | _ => none

/-- The findings loop over `data["findings"]`: each entry contributes its
parsed `Finding` or is dropped, and the loop itself never raises. -/
def parseFindingsData (entries : List JValue) : List Finding :=
  entries.filterMap tryParseFindingEntry

/-! ## `_attempt_json_repair` (openrouter.py, lines 328-355) and JSON
validity

The repair works on raw character counts.  Validity of a text under
`json.loads` is decided by a fuel-indexed recursive-descent parser for the
strict JSON grammar. -/

/-- Occurrences of the two-character sequence backslash-quote, counted left
to right without overlap: `content.count('\\"')`. -/
def countBQ : List Char → Nat
  | '\\' :: '"' :: rest => countBQ rest + 1
  | _ :: rest => countBQ rest
  | [] => 0

/-- `_attempt_json_repair` over the characters of the content: append a
closing quote when the quote tally (quotes minus escaped quotes) is odd,
then the bracket deficit of `']'`s, then the brace deficit of `'}'`s
(Python's `']' * n` is empty for negative `n`, exactly as truncated `Nat`
subtraction). -/
def attemptJsonRepair (content : List Char) : List Char :=
  let openBraces := content.count '{'
  let closeBraces := content.count '}'
  let openBrackets := content.count '['
  let closeBrackets := content.count ']'
  let quoteCount := content.count '"' - countBQ content
  let repaired := if quoteCount % 2 ≠ 0 then content ++ ['"'] else content
  repaired ++ List.replicate (openBrackets - closeBrackets) ']'
    ++ List.replicate (openBraces - closeBraces) '}'

/-- JSON whitespace skipping. -/
def skipWs : List Char → List Char
  | c :: rest =>
      if c = ' ' ∨ c = '\n' ∨ c = '\t' ∨ c = '\r' then skipWs rest
      else c :: rest
  | [] => []

/-- Hexadecimal digit test. -/
def isHexDigit (c : Char) : Bool :=
  ('0' ≤ c ∧ c ≤ '9') ∨ ('a' ≤ c ∧ c ≤ 'f') ∨ ('A' ≤ c ∧ c ≤ 'F')

/-- Decimal digit test. -/
def isDigitCh (c : Char) : Bool := '0' ≤ c ∧ c ≤ '9'

/-- Consume a (possibly empty) run of digits. -/
def dropDigits : List Char → List Char
  | c :: rest => if isDigitCh c then dropDigits rest else c :: rest
  | [] => []

/-- Consume one or more digits. -/
def parseDigits1 : List Char → Option (List Char)
  | c :: rest => if isDigitCh c then some (dropDigits rest) else none
  | [] => none

/-- Consume the body of a JSON string after its opening quote. -/
def parseStringRest : List Char → Option (List Char)
  | [] => none
  | '"' :: rest => some rest
  | '\\' :: esc :: rest =>
      if esc = '"' ∨ esc = '\\' ∨ esc = '/' ∨ esc = 'b' ∨ esc = 'f' ∨
          esc = 'n' ∨ esc = 'r' ∨ esc = 't' then
        parseStringRest rest
      else if esc = 'u' then
        match rest with
        | a :: b :: c :: d :: rest' =>
            if isHexDigit a ∧ isHexDigit b ∧ isHexDigit c ∧ isHexDigit d then
              parseStringRest rest'
            else none
        | _ => none
      else none
  | ['\\'] => none
  | c :: rest => if c.toNat < 32 then none else parseStringRest rest

/-- Consume the integer part of a JSON number: `0` or a nonzero digit run. -/
def parseIntPart : List Char → Option (List Char)
  | '0' :: rest => some rest
  | c :: rest => if isDigitCh c then some (dropDigits rest) else none
  | [] => none

/-- Consume an optional fraction part. -/
def parseFracPart : List Char → Option (List Char)
  | '.' :: rest => parseDigits1 rest
  | cs => some cs

/-- Consume an optional exponent part. -/
def parseExpPart : List Char → Option (List Char)
  | e :: rest =>
      if e = 'e' ∨ e = 'E' then
        match rest with
        | s :: rest' =>
            if s = '+' ∨ s = '-' then parseDigits1 rest'
            else parseDigits1 (s :: rest')
        | [] => none
      else some (e :: rest)
  | [] => some []

/-- Consume a JSON number. -/
def parseNumber : List Char → Option (List Char)
  | '-' :: rest => do
      let r ← parseIntPart rest
      let r ← parseFracPart r
      parseExpPart r
  | cs => do
      let r ← parseIntPart cs
      let r ← parseFracPart r
      parseExpPart r

mutual

/-- JSON value parser with fuel; returns the unconsumed remainder. -/
def parseJValue : Nat → List Char → Option (List Char)
  | 0, _ => none
  | fuel + 1, cs =>
      match skipWs cs with
      | '"' :: rest => parseStringRest rest
      | '{' :: rest =>
          match skipWs rest with
          | '}' :: rest' => some rest'
          | other => parseJMembers fuel other
      | '[' :: rest =>
          match skipWs rest with
          | ']' :: rest' => some rest'
          | other => parseJElems fuel other
      | 't' :: 'r' :: 'u' :: 'e' :: rest => some rest
      | 'f' :: 'a' :: 'l' :: 's' :: 'e' :: rest => some rest
      | 'n' :: 'u' :: 'l' :: 'l' :: rest => some rest
      | other => parseNumber other

/-- Object members starting at a key; consumes the closing brace. -/
def parseJMembers : Nat → List Char → Option (List Char)
  | 0, _ => none
  | fuel + 1, cs =>
      match cs with
      | '"' :: rest =>
          match parseStringRest rest with
          | none => none
          | some afterKey =>
              match skipWs afterKey with
              | ':' :: afterColon =>
                  match parseJValue fuel afterColon with
                  | none => none
                  | some afterVal =>
                      match skipWs afterVal with
                      | ',' :: more => parseJMembers fuel (skipWs more)
                      | '}' :: more => some more
                      | _ => none
              | _ => none
      | _ => none

/-- Array elements starting at an element; consumes the closing bracket. -/
def parseJElems : Nat → List Char → Option (List Char)
  | 0, _ => none
  | fuel + 1, cs =>
      match parseJValue fuel cs with
      | none => none
      | some afterVal =>
          match skipWs afterVal with
          | ',' :: more => parseJElems fuel more
          | ']' :: more => some more
          | _ => none

end

/-- `json.loads` succeeds on the text: one JSON value, then only
whitespace. -/
def isValidJSON (cs : List Char) : Bool :=
  match parseJValue (2 * cs.length + 4) cs with
  | some rest => (skipWs rest).isEmpty
  | none => false

/-- Whether character position `pos` (0-based from the start) of a JSON text
lies outside every string literal: scan `pos` characters tracking the
in-string state, a backslash escape consuming two characters. -/
def scanOutside : Nat → Bool → List Char → Bool
  | 0, inStr, _ => !inStr
  | _ + 1, inStr, [] => !inStr
  | k + 1, true, '\\' :: rest =>
      (match k, rest with
      | 0, _ => false
      | _ + 1, [] => false
      | k' + 1, _ :: rest' => scanOutside k' true rest')
  | k + 1, true, '"' :: rest => scanOutside k false rest
  | k + 1, true, _ :: rest => scanOutside k true rest
  | k + 1, false, '"' :: rest => scanOutside k true rest
  | k + 1, false, _ :: rest => scanOutside k false rest

/-- The cut made by removing the last `k` characters of `cs` lies outside
every string literal. -/
def cutOutsideString (cs : List Char) (k : Nat) : Bool :=
  scanOutside (cs.length - k) false cs

/-- A well-formed findings response: `\x7b"findings": [\x7b"title": "t",
"severity": "High", "description": "d", "remediation": "r"\x7d]\x7d`. -/
def findingsJsonDemo : String :=
  "\x7b\"findings\": [\x7b\"title\": \"t\", \"severity\": \"High\", \"description\": \"d\", \"remediation\": \"r\"\x7d]\x7d"

/-! ## FileCollector: `collect_files` (file_collector.py, lines 20-100)

The filesystem is a tree of named regular files (with byte sizes) and
directories.  `os.walk` is top-down: each directory's files are admitted
before its (non-pruned) subdirectories are descended, in sibling order.
Paths are component lists below the scan root. -/

/-- `str.startswith`. -/
def strStartsWith (s p : String) : Bool := p.toList.isPrefixOf s.toList

/-- `str.endswith`. -/
def strEndsWith (s p : String) : Bool := p.toList.isSuffixOf s.toList

/-- Substring occurrence over characters. -/
def hasSubList (pat : List Char) : List Char → Bool
  | [] => pat.isEmpty
  | c :: rest => pat.isPrefixOf (c :: rest) || hasSubList pat rest

/-- `pattern in name` on Python strings. -/
def strHasSub (s pat : String) : Bool := hasSubList pat.toList s.toList

/-- `_is_excluded` (file_collector.py, lines 80-100): leading-star suffix
match, trailing-star first-part match, else containment or equality. -/
def isExcludedName (patterns : List String) (name : String) : Bool :=
  patterns.any (fun pattern =>
    if strStartsWith pattern "*" then strEndsWith name (pattern.drop 1)
    else if strEndsWith pattern "*" then strStartsWith name (pattern.dropRight 1)
    else strHasSub name pattern || name == pattern)

/-- `PurePath.suffix`: with `i` the index of the last `'.'`, the extension is
`name[i:]` when `0 < i < len(name) - 1`, else empty. -/
def pathSuffix (name : String) : String :=
  let cs := name.toList
  match cs.reverse.findIdx? (· = '.') with
  | none => ""
  | some j =>
      let i := cs.length - 1 - j
      if 0 < i ∧ i < cs.length - 1 then String.mk (cs.drop i) else ""

/-- The `ScanConfig` fields used by `collect_files`. -/
structure CollectConfig where
  supported_extensions : List String
  exclude_patterns : List String
  max_file_size : Nat

/-- `_is_eligible_file` (file_collector.py, lines 57-78): not excluded by
name, extension allowlisted (lowercased); `is_file()` holds for every file
leaf of the model.  Note: no size check here. -/
def isEligibleFile (cfg : CollectConfig) (name : String) : Bool :=
  !isExcludedName cfg.exclude_patterns name &&
    cfg.supported_extensions.contains (strLower (pathSuffix name))

/-- A filesystem node: a regular file with its byte size, or a directory
with its ordered children. -/
inductive FSNode
  | file (name : String) (size : Nat)
  | dir (name : String) (children : List FSNode)

/-- The file entries one `os.walk` step admits at a directory (lines 42-53):
eligibility first, then the `max_file_size` ceiling (an oversized file is
skipped with only a printed warning). -/
def walkFiles (cfg : CollectConfig) (path : List String) :
    List FSNode → List (List String × Nat)
  | [] => []
  | .file name size :: rest =>
      (if isEligibleFile cfg name ∧ size ≤ cfg.max_file_size then
        [(path ++ [name], size)] else []) ++ walkFiles cfg path rest
  | .dir _ _ :: rest => walkFiles cfg path rest

/-- The descent of `os.walk` into the subdirectories left by
`dirs[:] = [d for d in dirs if not self._is_excluded(d)]`: a pruned subtree
is never opened. -/
def walkDirs (cfg : CollectConfig) (path : List String) :
    List FSNode → List (List String × Nat)
  | [] => []
  | .file _ _ :: rest => walkDirs cfg path rest
  | .dir name children :: rest =>
      (if isExcludedName cfg.exclude_patterns name then []
       else walkFiles cfg (path ++ [name]) children ++
         walkDirs cfg (path ++ [name]) children) ++
      walkDirs cfg path rest

/-- `collect_files` (file_collector.py, lines 20-55): a file root is admitted
by `_is_eligible_file` alone (no size check on this path); a directory root
is walked top-down with pruning. -/
def collect_files (cfg : CollectConfig) : FSNode → List (List String × Nat)
  | .file name size => if isEligibleFile cfg name then [([name], size)] else []
  | .dir _ children => walkFiles cfg [] children ++ walkDirs cfg [] children

/-- Every file of a forest, unfiltered, each exactly once, with its full
component path below the root, in the walk's files-before-subdirectories
order. -/
def enumFiles (path : List String) : List FSNode → List (List String × Nat)
  | [] => []
  | .file name size :: rest => (path ++ [name], size) :: enumFiles path rest
  | .dir _ _ :: rest => enumFiles path rest

/-- The unfiltered descent matching `walkDirs`. -/
def enumDirs (path : List String) : List FSNode → List (List String × Nat)
  | [] => []
  | .file _ _ :: rest => enumDirs path rest
  | .dir name children :: rest =>
      (enumFiles (path ++ [name]) children ++
        enumDirs (path ++ [name]) children) ++ enumDirs path rest

/-- All files of a forest, each exactly once. -/
def enumAll (forest : List FSNode) : List (List String × Nat) :=
  enumFiles [] forest ++ enumDirs [] forest

/-- Modelled from the spec: the admission predicate of the testable property
for `collect_files` on a directory root — every ancestor directory name
below the root unexcluded, the file name unexcluded with an allowlisted
extension, and the size under the ceiling. -/
def admissibleEntry (cfg : CollectConfig) (e : List String × Nat) : Bool :=
  e.1.dropLast.all (fun d => !isExcludedName cfg.exclude_patterns d) &&
    (match e.1.getLast? with
     | some name => isEligibleFile cfg name && decide (e.2 ≤ cfg.max_file_size)
     | none => false)

/-- The default `ScanConfig` filters (config.py, lines 198-213). -/
def defaultCollectConfig : CollectConfig :=
  { supported_extensions :=
      [".py", ".js", ".jsx", ".ts", ".tsx", ".java", ".go",
       ".rb", ".php", ".cs", ".cpp", ".c", ".h", ".hpp"],
    exclude_patterns :=
      [".git", "__pycache__", "node_modules", ".venv",
       "venv", "*.min.js", "*.min.css", ".pyc"],
    max_file_size := 1048576 }

/-- Demo batch: code blob `"code1"` whose analysis returns one finding
titled `"A"`. -/
def demoBatchA : String × List Finding :=
  ("code1", [{ title := "A", severity := .high, description := "dA",
               remediation := "rA" }])

/-- Demo batch: code blob `"code2"` whose analysis returns one finding
titled `"B"`. -/
def demoBatchB : String × List Finding :=
  ("code2", [{ title := "B", severity := .low, description := "dB",
               remediation := "rB" }])

/-- The truncation of the demo findings response: its last 50 characters
removed, cutting right after the `"severity":` key, outside every string
literal. -/
def truncatedDemo : List Char :=
  findingsJsonDemo.toList.take (findingsJsonDemo.toList.length - 50)

/-- A findings entry missing the required `severity` field. -/
def demoBadFields : List (String × JValue) :=
  [("title", .jstr "No severity here"), ("description", .jstr "d"),
   ("remediation", .jstr "r")]

/-- A malformed evidence entry: `code` is missing, so `Evidence(**ev)`
raises. -/
def demoBadEvidence : JValue := .jobj [("file_path", .jstr "a.py")]

/-- A well-formed evidence entry. -/
def demoGoodEvidence : JValue :=
  .jobj [("file_path", .jstr "a.py"), ("code", .jstr "x = 1")]

/-- A well-formed findings entry carrying one malformed and one well-formed
evidence entry. -/
def demoGoodEntry : JValue :=
  .jobj [("title", .jstr "G"), ("severity", .jstr "High"),
         ("description", .jstr "d"), ("remediation", .jstr "r"),
         ("evidence", .jarr [demoBadEvidence, demoGoodEvidence])]

/-- The fields of `demoGoodEntry`. -/
def demoGoodEntryFields : List (String × JValue) :=
  [("title", .jstr "G"), ("severity", .jstr "High"),
   ("description", .jstr "d"), ("remediation", .jstr "r"),
   ("evidence", .jarr [demoBadEvidence, demoGoodEvidence])]

/-- The finding `demoGoodEntry` parses to: the malformed evidence entry is
dropped, the well-formed one kept. -/
def demoParsedFinding : Finding :=
  { title := "G", severity := .high, description := "d",
    evidence := [{ file_path := "a.py", code := "x = 1" }],
    remediation := "r", references := none }

/-! ## Theorems -/

/-! ### String helpers -/

theorem string_foldl_append (l : List String) (s : String) :
    l.foldl (fun r t => r ++ t) s = s ++ String.join l := by
  induction l generalizing s with
  | nil =>
      simp only [List.foldl_nil]
      rw [show String.join [] = "" from rfl, String.append_empty]
  | cons a l ih =>
      simp only [List.foldl_cons]
      rw [ih (s ++ a)]
      rw [show String.join (a :: l) =
            l.foldl (fun r t => r ++ t) ("" ++ a) from rfl]
      rw [ih ("" ++ a), String.empty_append, String.append_assoc]

theorem string_join_append (a b : List String) :
    String.join (a ++ b) = String.join a ++ String.join b := by
  rw [show String.join (a ++ b) = (a ++ b).foldl (fun r t => r ++ t) "" from rfl]
  rw [List.foldl_append, string_foldl_append a "", string_foldl_append b,
    String.empty_append]

theorem string_join_flatten (L : List (List String)) :
    String.join (L.map String.join) = String.join L.join := by
  induction L with
  | nil => rfl
  | cons l L ih =>
      simp only [List.map_cons, List.join_cons]
      rw [string_join_append l L.join, ← ih]
      rw [show String.join (String.join l :: L.map String.join) =
            (String.join l :: L.map String.join).foldl (fun r t => r ++ t) "" from rfl]
      simp only [List.foldl_cons, String.empty_append]
      rw [string_foldl_append]

theorem readChunkLines_join (chunkSize : Nat) :
    ∀ (lines cur : List String) (curSize lineNo startLine : Nat),
      ((readChunkLines chunkSize lines cur curSize lineNo startLine).map
          Prod.fst).join = cur ++ lines := by
  intro lines
  induction lines with
  | nil =>
      intro cur curSize lineNo startLine
      by_cases h : cur = [] <;> simp [readChunkLines, h]
  | cons line rest ih =>
      intro cur curSize lineNo startLine
      by_cases h : curSize + line.utf8ByteSize > chunkSize ∧ cur ≠ [] <;>
        simp [readChunkLines, h, ih]

theorem readChunkLines_starts (chunkSize : Nat) :
    ∀ (lines cur : List String) (curSize lineNo startLine : Nat),
      lineNo = startLine + cur.length →
      startsFrom startLine (readChunkLines chunkSize lines cur curSize lineNo startLine) := by
  intro lines
  induction lines with
  | nil =>
      intro cur curSize lineNo startLine _
      by_cases h : cur = [] <;> simp [readChunkLines, h, startsFrom]
  | cons line rest ih =>
      intro cur curSize lineNo startLine hinv
      by_cases h : curSize + line.utf8ByteSize > chunkSize ∧ cur ≠ []
      · simp only [readChunkLines, if_pos h, startsFrom]
        refine ⟨trivial, ?_⟩
        rw [← hinv]
        exact ih [line] line.utf8ByteSize (lineNo + 1) lineNo (by simp)
      · simp only [readChunkLines, if_neg h]
        apply ih
        simp only [List.length_append, List.length_cons, List.length_nil]
        omega

/-- **C3.** For every readable file (modelled as its line sequence),
concatenating the content components of all chunks returned by
`read_file_chunked`, in emitted order, reproduces the original file content
exactly; moreover the chunks' line lists partition the original line sequence
in order, and each chunk is paired with the 1-based line number at which it
starts (its starting line is one plus the number of lines of all preceding
chunks, the first chunk starting at line 1). -/
theorem read_file_chunked_reconstructs (chunkSize : Nat) (lines : List String) :
    String.join ((read_file_chunked chunkSize lines).map Prod.fst) =
      String.join lines ∧
    ((fileChunks chunkSize lines).map Prod.fst).join = lines ∧
    read_file_chunked chunkSize lines =
      (fileChunks chunkSize lines).map (fun c => (String.join c.1, c.2)) ∧
    startsFrom 1 (fileChunks chunkSize lines) := by
  have hjoin : ((fileChunks chunkSize lines).map Prod.fst).join = lines := by
    simpa using readChunkLines_join chunkSize lines [] 0 1 1
  refine ⟨?_, hjoin, rfl, ?_⟩
  · have : (read_file_chunked chunkSize lines).map Prod.fst =
        ((fileChunks chunkSize lines).map Prod.fst).map String.join := by
      simp [read_file_chunked, List.map_map]
    rw [this, string_join_flatten, hjoin]
  · exact readChunkLines_starts chunkSize lines [] 0 1 1 (by simp)

theorem createBatchLoop_flatten (batchSize : Nat) :
    ∀ (rest cur : List (String × Nat)) (curSize : Nat),
      (createBatchLoop batchSize rest cur curSize).flatten = cur ++ rest := by
  intro rest
  induction rest with
  | nil =>
      intro cur curSize
      by_cases h : cur = [] <;> simp [createBatchLoop, h]
  | cons f rest ih =>
      intro cur curSize
      by_cases h : curSize + f.2 > batchSize ∧ cur ≠ [] <;>
        simp [createBatchLoop, h, ih]

theorem createBatchLoop_bounded (batchSize : Nat) :
    ∀ (rest cur : List (String × Nat)) (curSize : Nat),
      curSize = batchWeight cur →
      (batchWeight cur ≤ batchSize ∨ ∃ f, cur = [f] ∧ batchSize < f.2) →
      ∀ b ∈ createBatchLoop batchSize rest cur curSize,
        batchWeight b ≤ batchSize ∨ ∃ f, b = [f] ∧ batchSize < f.2 := by
  intro rest
  induction rest with
  | nil =>
      intro cur curSize _ hok b hb
      by_cases h : cur = []
      · simp [createBatchLoop, h] at hb
      · simp only [createBatchLoop, if_neg h, List.mem_singleton] at hb
        exact hb ▸ hok
  | cons f rest ih =>
      intro cur curSize hsz hok b hb
      by_cases h : curSize + f.2 > batchSize ∧ cur ≠ []
      · simp only [createBatchLoop, if_pos h, List.mem_cons] at hb
        rcases hb with rfl | hb
        · exact hok
        · refine ih [f] f.2 (by simp [batchWeight]) ?_ b hb
          rcases le_or_lt f.2 batchSize with hle | hlt
          · exact Or.inl (by simpa [batchWeight] using hle)
          · exact Or.inr ⟨f, rfl, hlt⟩
      · simp only [createBatchLoop, if_neg h] at hb
        have hwapp : batchWeight (cur ++ [f]) = batchWeight cur + f.2 := by
          simp [batchWeight]
        refine ih (cur ++ [f]) (curSize + f.2)
          (by rw [hwapp, hsz]) ?_ b hb
        rcases le_or_lt (curSize + f.2) batchSize with hle | hlt
        · exact Or.inl (by rw [hwapp, ← hsz]; exact hle)
        · have hcur : cur = [] := by
            by_contra hne
            exact h ⟨hlt, hne⟩
          subst hcur
          exact Or.inr ⟨f, rfl, by simpa [batchWeight, hsz] using hlt⟩

/-- **C4.** `create_batches` never yields a batch whose total size exceeds
`batch_size`, except a batch containing exactly one file that is alone larger
than `batch_size`; the packed stream is the input sorted ascending by size
(so files are packed in ascending size order), and every input file appears
in exactly one batch (the concatenation of all batches is a permutation of
the input paths, and at the sized level is exactly the sorted input). -/
theorem create_batches_sound (batchSize : Nat) (files : List (String × Nat)) :
    (∀ b ∈ sizedBatches batchSize files,
        batchWeight b ≤ batchSize ∨ ∃ f, b = [f] ∧ batchSize < f.2) ∧
    (sizedBatches batchSize files).flatten = sortBySize files ∧
    (create_batches batchSize files).flatten = (sortBySize files).map Prod.fst ∧
    List.Sorted (fun a b => a.2 ≤ b.2) (sortBySize files) ∧
    List.Perm (create_batches batchSize files).flatten (files.map Prod.fst) := by
  have hflat : (sizedBatches batchSize files).flatten = sortBySize files :=
    createBatchLoop_flatten batchSize (sortBySize files) [] 0
  have hproj : (create_batches batchSize files).flatten =
      (sortBySize files).map Prod.fst := by
    rw [create_batches, ← List.map_flatten, hflat]
  refine ⟨?_, hflat, hproj, ?_, ?_⟩
  · exact createBatchLoop_bounded batchSize (sortBySize files) [] 0
      (by simp [batchWeight]) (Or.inl (by simp [batchWeight]))
  · exact List.sorted_insertionSort _ files
  · rw [hproj]
    exact List.Perm.map Prod.fst (List.perm_insertionSort _ files)

/-- Witness for C4: a concrete packing.  Files of sizes 3, 50, 60 with
`batch_size = 100` pack as `[c, b]` (53 bytes) and `[a]` (60 bytes); the batch
`[c, b]` is within the bound. -/
theorem create_batches_sound_witness :
    [("c", 3), ("b", 50)] ∈ sizedBatches 100 [("a", 60), ("b", 50), ("c", 3)] ∧
    (batchWeight [("c", 3), ("b", 50)] ≤ 100 ∨
      ∃ f, [("c", 3), ("b", 50)] = [f] ∧ 100 < f.2) :=
  ⟨by decide,
    (create_batches_sound 100 [("a", 60), ("b", 50), ("c", 3)]).1
      [("c", 3), ("b", 50)] (by decide)⟩

theorem stats_fold (findings : List Finding) :
    ∀ a b c d e : Nat,
      findings.foldl (fun stats f => bumpStat stats (severityKey f.severity))
        [("critical", a), ("high", b), ("medium", c), ("low", d), ("info", e)] =
      [("critical", a + countSev .critical findings),
       ("high", b + countSev .high findings),
       ("medium", c + countSev .medium findings),
       ("low", d + countSev .low findings),
       ("info", e + countSev .informational findings)] := by
  induction findings with
  | nil => intro a b c d e; simp [countSev]
  | cons f fs ih =>
      intro a b c d e
      cases hs : f.severity
      case critical =>
        simp only [List.foldl_cons]
        rw [hs, show severityKey Severity.critical = "critical" from by decide]
        rw [show bumpStat
              [("critical", a), ("high", b), ("medium", c), ("low", d), ("info", e)]
              "critical" =
            [("critical", a + 1), ("high", b), ("medium", c), ("low", d), ("info", e)]
          from by simp +decide [bumpStat]]
        rw [ih]
        simp +decide [countSev, List.countP_cons, hs, List.cons.injEq, Prod.mk.injEq]
        omega
      case high =>
        simp only [List.foldl_cons]
        rw [hs, show severityKey Severity.high = "high" from by decide]
        rw [show bumpStat
              [("critical", a), ("high", b), ("medium", c), ("low", d), ("info", e)]
              "high" =
            [("critical", a), ("high", b + 1), ("medium", c), ("low", d), ("info", e)]
          from by simp +decide [bumpStat]]
        rw [ih]
        simp +decide [countSev, List.countP_cons, hs, List.cons.injEq, Prod.mk.injEq]
        omega
      case medium =>
        simp only [List.foldl_cons]
        rw [hs, show severityKey Severity.medium = "medium" from by decide]
        rw [show bumpStat
              [("critical", a), ("high", b), ("medium", c), ("low", d), ("info", e)]
              "medium" =
            [("critical", a), ("high", b), ("medium", c + 1), ("low", d), ("info", e)]
          from by simp +decide [bumpStat]]
        rw [ih]
        simp +decide [countSev, List.countP_cons, hs, List.cons.injEq, Prod.mk.injEq]
        omega
      case low =>
        simp only [List.foldl_cons]
        rw [hs, show severityKey Severity.low = "low" from by decide]
        rw [show bumpStat
              [("critical", a), ("high", b), ("medium", c), ("low", d), ("info", e)]
              "low" =
            [("critical", a), ("high", b), ("medium", c), ("low", d + 1), ("info", e)]
          from by simp +decide [bumpStat]]
        rw [ih]
        simp +decide [countSev, List.countP_cons, hs, List.cons.injEq, Prod.mk.injEq]
        omega
      case informational =>
        simp only [List.foldl_cons]
        rw [hs, show severityKey Severity.informational = "info" from by decide]
        rw [show bumpStat
              [("critical", a), ("high", b), ("medium", c), ("low", d), ("info", e)]
              "info" =
            [("critical", a), ("high", b), ("medium", c), ("low", d), ("info", e + 1)]
          from by simp +decide [bumpStat]]
        rw [ih]
        simp +decide [countSev, List.countP_cons, hs, List.cons.injEq, Prod.mk.injEq]
        omega

theorem calculate_severity_stats_eq (findings : List Finding) :
    calculate_severity_stats findings =
      [("critical", countSev .critical findings),
       ("high", countSev .high findings),
       ("medium", countSev .medium findings),
       ("low", countSev .low findings),
       ("info", countSev .informational findings)] := by
  have h := stats_fold findings 0 0 0 0 0
  simpa [calculate_severity_stats, initSeverityStats] using h

/-- Counterexample to C9 as stated: the no-files early return of
`analyze()` (analyzer.py, lines 120-125) produces a `ReportData` whose
`severity_stats` is the empty dict — it contains none of the five severity
keys — and no executive summary is generated. -/
theorem analyze_no_files_empty_stats_counterexample :
    (analyzeRun "App" [] [] false
        (fun _ _ => .ok ⟨"Confirmed", "High", "ok"⟩) "m" []).severity_stats =
      [] ∧
    (analyzeRun "App" [] [] false
        (fun _ _ => .ok ⟨"Confirmed", "High", "ok"⟩) "m"
        []).severity_stats.map Prod.fst ≠
      ["critical", "high", "medium", "low", "info"] ∧
    ((analyzeRun "App" [] [] false
        (fun _ _ => .ok ⟨"Confirmed", "High", "ok"⟩) "m"
        []).severity_stats.lookup "critical") = none ∧
    (analyzeRun "App" [] [] false
        (fun _ _ => .ok ⟨"Confirmed", "High", "ok"⟩) "m" []).executive_summary =
      none := by
  refine ⟨rfl, by decide, rfl, rfl⟩

set_option maxRecDepth 100000 in
/-- **C9 (amended).** Every `ReportData` produced by `analyze()` for a scan
that collected at least one file has `severity_stats` containing exactly the
five keys `critical`, `high`, `medium`, `low`, `info`, each key's value
being the number of findings of that severity (`Informational` mapped to
`info`); a scan that collected no files returns early with `severity_stats`
left as the empty dict.  In the concrete scenario with one collected file
and two findings of severities High and Critical, the stats map to
1, 1, 0, 0, 0 and the executive summary states "2 security finding(s)". -/
theorem analyze_report_severity_stats :
    (∀ (appName : String) (files : List (List String × Nat))
        (outcomes : List (Except String (List Finding)))
        (ce : Bool) (oracle : Finding → String → Except String ValidationResult)
        (cm : String) (codes : List (String × String)),
      files ≠ [] →
      (analyzeRun appName files outcomes ce oracle cm codes).severity_stats =
        [("critical",
            countSev .critical
              (analyzeRun appName files outcomes ce oracle cm codes).findings),
         ("high",
            countSev .high
              (analyzeRun appName files outcomes ce oracle cm codes).findings),
         ("medium",
            countSev .medium
              (analyzeRun appName files outcomes ce oracle cm codes).findings),
         ("low",
            countSev .low
              (analyzeRun appName files outcomes ce oracle cm codes).findings),
         ("info",
            countSev .informational
              (analyzeRun appName files outcomes ce oracle cm codes).findings)] ∧
      (analyzeRun appName files outcomes ce oracle cm
          codes).severity_stats.map Prod.fst =
        ["critical", "high", "medium", "low", "info"]) ∧
    (analyzeRun "App" [(["a.py"], 10)] [.ok [demoFindingHigh, demoFindingCritical]]
        false (fun _ _ => .ok ⟨"Confirmed", "High", "ok"⟩) "m" []).severity_stats =
      [("critical", 1), ("high", 1), ("medium", 0), ("low", 0), ("info", 0)] ∧
    (analyzeRun "App" [(["a.py"], 10)] [.ok [demoFindingHigh, demoFindingCritical]]
        false (fun _ _ => .ok ⟨"Confirmed", "High", "ok"⟩) "m" []).executive_summary =
      some ("<p>The automated security analysis identified <strong>" ++
        "2 security finding(s)" ++
        "</strong> in the App codebase:</p>\n<ul>\n<li><strong>Critical:</strong> 1 issue(s) requiring immediate attention</li>\n<li><strong>High:</strong> 1 issue(s) that should be addressed soon</li>\n<li><strong>Medium:</strong> 0 issue(s) requiring review</li>\n<li><strong>Low:</strong> 0 minor issue(s)</li>\n<li><strong>Informational:</strong> 0 best practice recommendation(s)</li>\n</ul>\n<p>This report provides detailed findings with remediation guidance for each identified vulnerability.</p>") := by
  refine ⟨?_, ?_, ?_⟩
  · intro appName files outcomes ce oracle cm codes hne
    have hrun : analyzeRun appName files outcomes ce oracle cm codes =
        analyzeModel appName outcomes ce oracle cm codes := by
      simp [analyzeRun, hne]
    rw [hrun]
    rw [show (analyzeModel appName outcomes ce oracle cm codes).severity_stats =
          calculate_severity_stats
            (analyzeModel appName outcomes ce oracle cm codes).findings from rfl]
    rw [calculate_severity_stats_eq]
    exact ⟨rfl, rfl⟩
  · rfl
  · rfl

/-- Witness for C9 (amended): a scan with one collected file. -/
theorem analyze_report_severity_stats_witness :
    ([(["a.py"], 10)] : List (List String × Nat)) ≠ [] ∧
    ((analyzeRun "App" [(["a.py"], 10)] [] false
        (fun _ _ => .ok ⟨"Confirmed", "High", "ok"⟩) "m" []).severity_stats =
      [("critical",
          countSev .critical (analyzeRun "App" [(["a.py"], 10)] [] false
            (fun _ _ => .ok ⟨"Confirmed", "High", "ok"⟩) "m" []).findings),
       ("high",
          countSev .high (analyzeRun "App" [(["a.py"], 10)] [] false
            (fun _ _ => .ok ⟨"Confirmed", "High", "ok"⟩) "m" []).findings),
       ("medium",
          countSev .medium (analyzeRun "App" [(["a.py"], 10)] [] false
            (fun _ _ => .ok ⟨"Confirmed", "High", "ok"⟩) "m" []).findings),
       ("low",
          countSev .low (analyzeRun "App" [(["a.py"], 10)] [] false
            (fun _ _ => .ok ⟨"Confirmed", "High", "ok"⟩) "m" []).findings),
       ("info",
          countSev .informational (analyzeRun "App" [(["a.py"], 10)] [] false
            (fun _ _ => .ok ⟨"Confirmed", "High", "ok"⟩) "m" []).findings)] ∧
      (analyzeRun "App" [(["a.py"], 10)] [] false
          (fun _ _ => .ok ⟨"Confirmed", "High", "ok"⟩) "m"
          []).severity_stats.map Prod.fst =
        ["critical", "high", "medium", "low", "info"]) :=
  ⟨by decide,
   analyze_report_severity_stats.1 "App" [(["a.py"], 10)] [] false
     (fun _ _ => .ok ⟨"Confirmed", "High", "ok"⟩) "m" [] (by decide)⟩

theorem validateLoop_length
    (o : Finding → String → Except String ValidationResult) (cm : String)
    (codes : List (String × String)) :
    ∀ (fs : List Finding) (k : Nat),
      (validateLoop o cm codes fs k).length = fs.length := by
  intro fs
  induction fs with
  | nil => intro k; rfl
  | cons f rest ih => intro k; simp [validateLoop, ih]

theorem validateLoop_getElem
    (o : Finding → String → Except String ValidationResult) (cm : String)
    (codes : List (String × String)) :
    ∀ (fs : List Finding) (k i : Nat) (hi : i < fs.length),
      (validateLoop o cm codes fs k)[i]? =
        some (match o (fs.get ⟨i, hi⟩)
                (originalCodeFor codes (k + i) (fs.get ⟨i, hi⟩)) with
          | .ok v => annotateValidated (fs.get ⟨i, hi⟩) v cm
          | .error e => annotateValidationError (fs.get ⟨i, hi⟩) e cm) := by
  intro fs
  induction fs with
  | nil => intro k i hi; simp at hi
  | cons f rest ih =>
      intro k i hi
      cases i with
      | zero => simp [validateLoop]
      | succ n =>
          have hn : n < rest.length := by simpa using Nat.lt_of_succ_lt_succ hi
          have h := ih (k + 1) n hn
          simp only [validateLoop, List.getElem?_cons_succ]
          rw [h]
          have : k + 1 + n = k + (n + 1) := by omega
          simp [this]

/-- **C8.** For every `Finding` entering the maker-checker validation pass,
if the validation call raises, the `Finding` is retained in the result set —
`_validate_findings` returns exactly as many findings as it was given — and
the output finding at the same position keeps the core fields and is
annotated with verdict "Needs Review", confidence "Low", and a rationale
containing the error text. -/
theorem validate_findings_error_annotates
    (o : Finding → String → Except String ValidationResult) (cm : String)
    (codes : List (String × String)) (findings : List Finding) :
    (validate_findings o cm codes findings).length = findings.length ∧
    ∀ (i : Nat) (hi : i < findings.length) (e : String),
      o (findings.get ⟨i, hi⟩)
          (originalCodeFor codes i (findings.get ⟨i, hi⟩)) = .error e →
      ∃ out : Finding,
        (validate_findings o cm codes findings)[i]? = some out ∧
        out.title = (findings.get ⟨i, hi⟩).title ∧
        out.severity = (findings.get ⟨i, hi⟩).severity ∧
        out.description = (findings.get ⟨i, hi⟩).description ∧
        out.evidence = (findings.get ⟨i, hi⟩).evidence ∧
        out.remediation = (findings.get ⟨i, hi⟩).remediation ∧
        out.validated = true ∧
        out.validation_verdict = some "Needs Review" ∧
        out.validation_confidence = some "Low" ∧
        out.validation_rationale = some ("Validation error: " ++ e) ∧
        out.validated_by_model = some cm := by
  constructor
  · exact validateLoop_length o cm codes findings 0
  · intro i hi e he
    have h := validateLoop_getElem o cm codes findings 0 i hi
    rw [Nat.zero_add] at h
    rw [he] at h
    refine ⟨annotateValidationError (findings.get ⟨i, hi⟩) e cm, h, ?_⟩
    simp [annotateValidationError]

/-- Witness for C8: one finding, a checker that always throws `"boom"`. -/
theorem validate_findings_error_annotates_witness :
    (fun (_ : Finding) (_ : String) =>
        (.error "boom" : Except String ValidationResult)) demoFindingHigh
      (originalCodeFor [] 0 demoFindingHigh) = .error "boom" ∧
    ∃ out : Finding,
      (validate_findings
          (fun _ _ => (.error "boom" : Except String ValidationResult))
          "checker-model" [] [demoFindingHigh])[0]? = some out ∧
      out.title = (([demoFindingHigh] : List Finding).get
        ⟨0, by decide⟩).title ∧
      out.severity = (([demoFindingHigh] : List Finding).get
        ⟨0, by decide⟩).severity ∧
      out.description = (([demoFindingHigh] : List Finding).get
        ⟨0, by decide⟩).description ∧
      out.evidence = (([demoFindingHigh] : List Finding).get
        ⟨0, by decide⟩).evidence ∧
      out.remediation = (([demoFindingHigh] : List Finding).get
        ⟨0, by decide⟩).remediation ∧
      out.validated = true ∧
      out.validation_verdict = some "Needs Review" ∧
      out.validation_confidence = some "Low" ∧
      out.validation_rationale = some ("Validation error: " ++ "boom") ∧
      out.validated_by_model = some "checker-model" :=
  ⟨rfl,
    (validate_findings_error_annotates
        (fun _ _ => (.error "boom" : Except String ValidationResult))
        "checker-model" [] [demoFindingHigh]).2 0 (by decide) "boom" rfl⟩

/-- **C2 (failing input).** The lookup key `_validate_findings` derives for
the first gathered finding (`"A_0"`, title plus task-order index) differs
from the key `_process_batch` stored for it (`"A_1"`, title plus
`len(batch_codes)` at completion time) when the two batches complete in the
order `[1, 0]` — a legal schedule, since batch completions are unordered —
so the validation of finding `A` receives the empty fallback, not its
originating batch's code `"code1"`. -/
theorem batch_code_key_mismatch :
    List.Perm [1, 0] [0, 1] ∧
    gatheredFindings [demoBatchA, demoBatchB] =
      demoBatchA.2 ++ demoBatchB.2 ∧
    runStores [demoBatchA, demoBatchB] [1, 0] =
      [("B_0", "code2"), ("A_1", "code1")] ∧
    (runStores [demoBatchA, demoBatchB] [1, 0]).lookup "A_0" = none ∧
    originalCodeFor (runStores [demoBatchA, demoBatchB] [1, 0]) 0
      (demoBatchA.2.get ⟨0, by decide⟩) = "" ∧
    originalCodeFor (runStores [demoBatchA, demoBatchB] [1, 0]) 0
      (demoBatchA.2.get ⟨0, by decide⟩) ≠ demoBatchA.1 := by
  refine ⟨by decide, by decide, by decide, by decide, by decide, by decide⟩

theorem analyzeModel_findings (appName : String)
    (outcomes : List (Except String (List Finding))) (ce : Bool)
    (oracle : Finding → String → Except String ValidationResult)
    (cm : String) (codes : List (String × String)) :
    (analyzeModel appName outcomes ce oracle cm codes).findings =
      if ce ∧ (outcomes.map process_batch).flatten ≠ [] then
        validate_findings oracle cm codes (outcomes.map process_batch).flatten
      else (outcomes.map process_batch).flatten := rfl

theorem processBatch_flatten (outcomes : List (Except String (List Finding))) :
    ((outcomes.map process_batch).flatten) =
      (outcomes.filterMap Except.toOption).flatten := by
  induction outcomes with
  | nil => rfl
  | cons r rest ih =>
      cases r <;> simp [process_batch, Except.toOption, ih]

/-- **C10.** A batch whose provider call fails (retries exhausted)
contributes zero findings and never disturbs sibling batches: `analyze`
always terminates with a `ReportData` whose findings are exactly the
concatenated findings of the successful batches (checker disabled), deleting
a failed batch from the outcome list leaves the aggregate unchanged, and
with the checker enabled the report still contains one finding per gathered
finding, regardless of how many batches failed. -/
theorem analyze_failure_isolation :
    (∀ (appName : String) (outcomes : List (Except String (List Finding)))
        (oracle : Finding → String → Except String ValidationResult)
        (cm : String) (codes : List (String × String)),
      (analyzeModel appName outcomes false oracle cm codes).findings =
        (outcomes.filterMap Except.toOption).flatten) ∧
    (∀ (before after : List (Except String (List Finding))) (e : String),
      (((before ++ .error e :: after).map process_batch).flatten) =
        (((before ++ after).map process_batch).flatten)) ∧
    (∀ (appName : String) (outcomes : List (Except String (List Finding)))
        (ce : Bool) (oracle : Finding → String → Except String ValidationResult)
        (cm : String) (codes : List (String × String)),
      (analyzeModel appName outcomes ce oracle cm codes).findings.length =
        ((outcomes.filterMap Except.toOption).flatten).length) := by
  refine ⟨?_, ?_, ?_⟩
  · intro appName outcomes oracle cm codes
    rw [analyzeModel_findings]
    rw [if_neg (by simp)]
    exact processBatch_flatten outcomes
  · intro before after e
    simp [process_batch]
  · intro appName outcomes ce oracle cm codes
    rw [analyzeModel_findings]
    by_cases hc : ce ∧ (outcomes.map process_batch).flatten ≠ []
    · rw [if_pos hc]
      rw [show validate_findings oracle cm codes
            ((outcomes.map process_batch).flatten) =
          validateLoop oracle cm codes
            ((outcomes.map process_batch).flatten) 0 from rfl]
      rw [validateLoop_length, processBatch_flatten]
    · rw [if_neg hc, processBatch_flatten]

theorem retryExecAux_attempt_le
    (r : ProviderException → Bool)
    (outcome : Nat → Except ProviderException (List Finding)) :
    ∀ (fuel attempt : Nat),
      (retryExecAux r outcome attempt fuel).2 ≤ attempt + fuel := by
  intro fuel
  induction fuel with
  | zero => intro attempt; simp [retryExecAux]
  | succ fuel ih =>
      intro attempt
      simp only [retryExecAux]
      cases outcome attempt with
      | ok v => simp
      | error e =>
          by_cases hr : r e
          · simp only [hr, if_true]
            calc (retryExecAux r outcome (attempt + 1) fuel).2
                ≤ attempt + 1 + fuel := ih (attempt + 1)
              _ ≤ attempt + (fuel + 1) := by omega
          · simp [hr]

/-- Counterexample to C1 as stated: an HTTP 401 response (a 4xx, raised as
`httpx.HTTPStatusError`, a subclass of `httpx.HTTPError`) satisfies the
retry predicate, and a call failing with it is attempted all 3 times rather
than surfaced after the first attempt. -/
theorem http_4xx_retried_counterexample :
    retryOnException (.httpStatusError 401) = true ∧
    (retryExec analyzeCodePolicy
      (fun _ => .error (.httpStatusError 401))).2 = 3 ∧
    (retryExec analyzeCodePolicy
      (fun _ => .error (.httpStatusError 401))).2 ≠ 1 ∧
    (retryExec analyzeCodePolicy (fun _ => .error (.httpStatusError 401))).1 =
      .error (.httpStatusError 401) := by
  refine ⟨rfl, rfl, by decide, rfl⟩

/-- **C1 (amended).** Both provider calls (`analyze_code` and
`validate_finding`) run under the same tenacity policy: at most 3 attempts,
exponential backoff whose delay always lies between the floor of 2 seconds
and the cap of 10 seconds and never decreases; a network failure, any HTTP
status error (5xx and 429, but also every 4xx, since
`httpx.HTTPStatusError` is a subclass of the registered `httpx.HTTPError`),
and a malformed/truncated-response parse error are all retried, while only
exceptions outside the `(httpx.HTTPError, JSONParseError)` pair surface
immediately on the first attempt. -/
theorem provider_retry_policy_amended :
    validateFindingPolicy = analyzeCodePolicy ∧
    analyzeCodePolicy.stopAfterAttempt = 3 ∧
    (∀ m, retryOnException (.networkError m) = true) ∧
    (∀ s, retryOnException (.httpStatusError s) = true) ∧
    (∀ m, retryOnException (.jsonParseError m) = true) ∧
    (∀ m, retryOnException (.otherError m) = false) ∧
    (∀ n, 2 ≤ analyzeCodePolicy.wait n ∧ analyzeCodePolicy.wait n ≤ 10) ∧
    (∀ n k, analyzeCodePolicy.wait n ≤ analyzeCodePolicy.wait (n + k)) ∧
    (∀ outcome, (retryExec analyzeCodePolicy outcome).2 ≤ 3) ∧
    (∀ outcome m, outcome 1 = .error (.otherError m) →
      retryExec analyzeCodePolicy outcome = (.error (.otherError m), 1)) := by
  refine ⟨rfl, rfl, fun m => rfl, fun s => rfl, fun m => rfl, fun m => rfl,
    ?_, ?_, ?_, ?_⟩
  · intro n
    simp only [RetryPolicy.wait, analyzeCodePolicy]
    constructor
    · exact Nat.le_max_left 2 _
    · exact Nat.max_le.mpr ⟨by omega, Nat.min_le_right _ 10⟩
  · intro n k
    have hpow : 2 ^ (n - 1) ≤ 2 ^ (n + k - 1) :=
      Nat.pow_le_pow_right (by omega) (by omega)
    simp only [RetryPolicy.wait, analyzeCodePolicy, Nat.one_mul]
    exact max_le_max (Nat.le_refl 2) (min_le_min hpow (Nat.le_refl 10))
  · intro outcome
    have h := retryExecAux_attempt_le retryOnException outcome 2 1
    simpa [retryExec, analyzeCodePolicy] using h
  · intro outcome m h
    simp [retryExec, analyzeCodePolicy, retryExecAux, h, retryOnException,
      isHttpxHTTPError, isJSONParseError]

/-- Witness for C1 (amended): concrete delays and a concrete configuration
error surfacing on the first attempt. -/
theorem provider_retry_policy_amended_witness :
    (2 ≤ analyzeCodePolicy.wait 1 ∧ analyzeCodePolicy.wait 1 ≤ 10) ∧
    analyzeCodePolicy.wait 2 ≤ analyzeCodePolicy.wait (2 + 1) ∧
    (retryExec analyzeCodePolicy
        (fun _ => .error (.otherError "bad config"))).2 ≤ 3 ∧
    ((fun (_ : Nat) =>
        (.error (.otherError "bad config") :
          Except ProviderException (List Finding))) 1 =
      .error (.otherError "bad config")) ∧
    retryExec analyzeCodePolicy
        (fun _ => .error (.otherError "bad config")) =
      (.error (.otherError "bad config"), 1) :=
  ⟨provider_retry_policy_amended.2.2.2.2.2.2.1 1,
   provider_retry_policy_amended.2.2.2.2.2.2.2.1 2 1,
   provider_retry_policy_amended.2.2.2.2.2.2.2.2.1
     (fun _ => .error (.otherError "bad config")),
   rfl,
   provider_retry_policy_amended.2.2.2.2.2.2.2.2.2
     (fun _ => .error (.otherError "bad config")) "bad config" rfl⟩

/-- Counterexample to C6 as stated: the demo findings response is valid
JSON, removing its last 50 characters cuts outside every string literal,
yet the repair of the truncation (which appends `']'` before `'}'`
regardless of actual nesting order and would close the object after a
dangling `"severity":` key) does not parse as JSON. -/
theorem json_repair_counterexample :
    isValidJSON findingsJsonDemo.toList = true ∧
    cutOutsideString findingsJsonDemo.toList 50 = true ∧
    isValidJSON (attemptJsonRepair truncatedDemo) = false := by
  refine ⟨by decide, by decide, by decide⟩

/-- **C6 (amended).** The repair step only balances raw character tallies:
whenever the truncated text does not over-close, the repaired text has
equally many `'{'` and `'}'` and equally many `'['` and `']'` (the repair
appends one closing quote when the escape-adjusted quote count is odd, then
the bracket deficit, then the brace deficit); the repaired text is reparsed
once, but it is not guaranteed to be valid JSON. -/
theorem attempt_json_repair_balances (content : List Char) :
    (content.count '}' ≤ content.count '{' →
      (attemptJsonRepair content).count '{' =
        (attemptJsonRepair content).count '}') ∧
    (content.count ']' ≤ content.count '[' →
      (attemptJsonRepair content).count '[' =
        (attemptJsonRepair content).count ']') := by
  constructor
  · intro h
    by_cases hq : (content.count '"' - countBQ content) % 2 ≠ 0 <;>
      simp [attemptJsonRepair, hq, List.count_append, List.count_replicate,
        List.count_singleton, List.count_cons, List.count_nil] <;>
      omega
  · intro h
    by_cases hq : (content.count '"' - countBQ content) % 2 ≠ 0 <;>
      simp [attemptJsonRepair, hq, List.count_append, List.count_replicate,
        List.count_singleton, List.count_cons, List.count_nil] <;>
      omega

/-- Witness for C6 (amended), at the truncated demo response. -/
theorem attempt_json_repair_balances_witness :
    (truncatedDemo.count '}' ≤ truncatedDemo.count '{' ∧
      (attemptJsonRepair truncatedDemo).count '{' =
        (attemptJsonRepair truncatedDemo).count '}') ∧
    (truncatedDemo.count ']' ≤ truncatedDemo.count '[' ∧
      (attemptJsonRepair truncatedDemo).count '[' =
        (attemptJsonRepair truncatedDemo).count ']') :=
  ⟨⟨by decide, (attempt_json_repair_balances truncatedDemo).1 (by decide)⟩,
   ⟨by decide, (attempt_json_repair_balances truncatedDemo).2 (by decide)⟩⟩

theorem tryParseFindingEntry_missing (fields : List (String × JValue))
    (h : missingRequired fields = true) :
    tryParseFindingEntry (.jobj fields) = none := by
  simp [tryParseFindingEntry, h]

/-- **C7.** When parsing a findings response, an entry missing a required
field (its absence detected on the object's keys) is dropped without
raising and without affecting the sibling findings, which are still
returned; and within a parsed finding every malformed evidence entry is
dropped individually — the finding is produced with exactly the evidence
entries that validate, independently of how many of its evidence entries
are malformed. -/
theorem parse_findings_leniency :
    (∀ (xs ys : List JValue) (fields : List (String × JValue)),
      missingRequired fields = true →
      parseFindingsData (xs ++ JValue.jobj fields :: ys) =
        parseFindingsData xs ++ parseFindingsData ys) ∧
    (∀ (fields : List (String × JValue)) (evs : List JValue) (f : Finding),
      fields.lookup "evidence" = some (.jarr evs) →
      tryParseFindingEntry (.jobj fields) = some f →
      f.evidence = evs.filterMap tryParseEvidence) ∧
    (∀ (t d r : String) (evs : List JValue),
      tryParseFindingEntry (.jobj
        [("title", .jstr t), ("severity", .jstr "High"),
         ("description", .jstr d), ("remediation", .jstr r),
         ("evidence", .jarr evs)]) =
        some { title := t, severity := .high, description := d,
               evidence := evs.filterMap tryParseEvidence, remediation := r,
               references := none }) := by
  refine ⟨?_, ?_, ?_⟩
  · intro xs ys fields h
    simp [parseFindingsData, List.filterMap_append,
      tryParseFindingEntry_missing fields h]
  · intro fields evs f hev hf
    by_cases hm : missingRequired fields
    · rw [tryParseFindingEntry_missing fields hm] at hf
      exact absurd hf (by simp)
    · simp only [tryParseFindingEntry, hm, Bool.false_eq_true, if_false,
        hev, evidenceItems, Option.bind_eq_bind] at hf
      simp only [Option.bind_eq_some] at hf
      obtain ⟨evs', hevs', hf⟩ := hf
      obtain ⟨t, ht, hf⟩ := hf
      obtain ⟨sev, hsev, hf⟩ := hf
      obtain ⟨d, hd, hf⟩ := hf
      obtain ⟨r, hr, hf⟩ := hf
      obtain ⟨cv, hcv, hf⟩ := hf
      obtain ⟨im, him, hf⟩ := hf
      obtain ⟨at_, hat, hf⟩ := hf
      obtain ⟨rf, hrf, hf⟩ := hf
      cases hevs'
      cases hf
      rfl
  · intro t d r evs
    rfl

/-- Witness for C7: a sibling entry missing `severity` is dropped while the
well-formed entry still parses, with its malformed evidence entry dropped
individually. -/
theorem parse_findings_leniency_witness :
    missingRequired demoBadFields = true ∧
    parseFindingsData ([demoGoodEntry] ++ JValue.jobj demoBadFields :: []) =
      parseFindingsData [demoGoodEntry] ++ parseFindingsData [] ∧
    demoGoodEntryFields.lookup "evidence" =
      some (.jarr [demoBadEvidence, demoGoodEvidence]) ∧
    tryParseFindingEntry (.jobj demoGoodEntryFields) =
      some demoParsedFinding ∧
    tryParseEvidence demoBadEvidence = none ∧
    tryParseEvidence demoGoodEvidence =
      some { file_path := "a.py", code := "x = 1" } ∧
    demoParsedFinding.evidence =
      [demoBadEvidence, demoGoodEvidence].filterMap tryParseEvidence :=
  ⟨rfl,
   parse_findings_leniency.1 [demoGoodEntry] [] demoBadFields rfl,
   rfl, rfl, rfl, rfl,
   parse_findings_leniency.2.1 demoGoodEntryFields
     [demoBadEvidence, demoGoodEvidence] demoParsedFinding rfl rfl⟩

theorem enumFiles_filter_bad (cfg : CollectConfig) (path : List String)
    (hbad : path.all (fun d => !isExcludedName cfg.exclude_patterns d) = false) :
    ∀ f : List FSNode,
      (enumFiles path f).filter (admissibleEntry cfg) = [] := by
  intro f
  induction f with
  | nil => rfl
  | cons node rest ih =>
      cases node with
      | file name size =>
          simp [enumFiles, List.filter_cons, admissibleEntry, hbad, ih]
      | dir name children => simp [enumFiles, ih]

theorem enumDirs_filter_bad (cfg : CollectConfig) :
    ∀ (f : List FSNode) (path : List String),
      path.all (fun d => !isExcludedName cfg.exclude_patterns d) = false →
      (enumDirs path f).filter (admissibleEntry cfg) = []
  | [], path, _ => by simp [enumDirs]
  | .file _ _ :: rest, path, h => by
      simp only [enumDirs]
      exact enumDirs_filter_bad cfg rest path h
  | .dir name children :: rest, path, h => by
      have h' : (path ++ [name]).all
          (fun d => !isExcludedName cfg.exclude_patterns d) = false := by
        simp [h]
      simp only [enumDirs, List.filter_append]
      rw [enumFiles_filter_bad cfg (path ++ [name]) h' children,
        enumDirs_filter_bad cfg children (path ++ [name]) h',
        enumDirs_filter_bad cfg rest path h]
      rfl

theorem walkFiles_eq_filter (cfg : CollectConfig) (path : List String)
    (hok : path.all (fun d => !isExcludedName cfg.exclude_patterns d) = true) :
    ∀ f : List FSNode,
      walkFiles cfg path f = (enumFiles path f).filter (admissibleEntry cfg) := by
  intro f
  induction f with
  | nil => rfl
  | cons node rest ih =>
      cases node with
      | file name size =>
          by_cases h1 : isEligibleFile cfg name <;>
          by_cases h2 : size ≤ cfg.max_file_size <;>
            simp [walkFiles, enumFiles, List.filter_cons, admissibleEntry,
              hok, h1, h2, ih]
      | dir name children => simp [walkFiles, enumFiles, ih]

theorem walkDirs_eq_filter (cfg : CollectConfig) :
    ∀ (f : List FSNode) (path : List String),
      path.all (fun d => !isExcludedName cfg.exclude_patterns d) = true →
      walkDirs cfg path f = (enumDirs path f).filter (admissibleEntry cfg)
  | [], path, _ => by simp [walkDirs, enumDirs]
  | .file _ _ :: rest, path, h => by
      simp only [walkDirs, enumDirs]
      exact walkDirs_eq_filter cfg rest path h
  | .dir name children :: rest, path, h => by
      simp only [walkDirs, enumDirs, List.filter_append]
      rw [walkDirs_eq_filter cfg rest path h]
      by_cases hex : isExcludedName cfg.exclude_patterns name
      · have h' : (path ++ [name]).all
            (fun d => !isExcludedName cfg.exclude_patterns d) = false := by
          simp [hex]
        rw [if_pos hex,
          enumFiles_filter_bad cfg (path ++ [name]) h' children,
          enumDirs_filter_bad cfg children (path ++ [name]) h']
        rfl
      · have h' : (path ++ [name]).all
            (fun d => !isExcludedName cfg.exclude_patterns d) = true := by
          simp [h, hex]
        rw [if_neg hex,
          walkFiles_eq_filter cfg (path ++ [name]) h' children,
          walkDirs_eq_filter cfg children (path ++ [name]) h']

/-- Counterexample to C5 as stated: a 2 MB `.py` file over the 1 MB default
ceiling, given directly as the scan root, is included by `collect_files` —
the single-file admission path applies `_is_eligible_file` only and never
checks `max_file_size`, so the oversized file is not skipped when the root
is the file itself. -/
theorem collect_files_oversized_root_counterexample :
    isEligibleFile defaultCollectConfig "big.py" = true ∧
    defaultCollectConfig.max_file_size = 1048576 ∧
    collect_files defaultCollectConfig (.file "big.py" 2097152) =
      [(["big.py"], 2097152)] := by
  refine ⟨by decide, rfl, by decide⟩

/-- **C5 (amended).** For a directory root, `collect_files` returns exactly
(and exactly once, in walk order) the files of the tree that lie under no
excluded directory name, whose own name matches no exclusion pattern, whose
lowercased extension is allowlisted, and whose size is at most
`max_file_size`; for a file root, the file is admitted by
`_is_eligible_file` alone — the size ceiling is not applied on that path. -/
theorem collect_files_characterized :
    (∀ (cfg : CollectConfig) (rootName : String) (children : List FSNode),
      collect_files cfg (.dir rootName children) =
        (enumAll children).filter (admissibleEntry cfg)) ∧
    (∀ (cfg : CollectConfig) (name : String) (size : Nat),
      isEligibleFile cfg name = true →
      collect_files cfg (.file name size) = [([name], size)]) := by
  constructor
  · intro cfg rootName children
    show walkFiles cfg [] children ++ walkDirs cfg [] children = _
    rw [walkFiles_eq_filter cfg [] rfl children,
      walkDirs_eq_filter cfg children [] rfl, enumAll, List.filter_append]
  · intro cfg name size h
    simp [collect_files, h]

/-- Witness for C5 (amended): an eligible 500-byte `.py` file as the root. -/
theorem collect_files_characterized_witness :
    isEligibleFile defaultCollectConfig "app.py" = true ∧
    collect_files defaultCollectConfig (.file "app.py" 500) =
      [(["app.py"], 500)] :=
  ⟨by decide,
   collect_files_characterized.2 defaultCollectConfig "app.py" 500 (by decide)⟩

end ThreatCode
